import Mathlib

/-!
Verification development for the soul-resonance-studio front-end.

The repository's feature-extraction pipeline is shallowly embedded here:

* `AudioAnalyzer` — `src/src/hooks/use-audio-analyzer.ts`; the per-tick
  frequency computation (`analyze` inside `startAnalysis`) and the
  `stopAnalysis` / `cleanup` resource transitions.
* `FacialAnalyzer` — the facial metric extractor (camera-capture hook);
  `analyzeFacialMetrics` with its pixel sweeps over an off-screen buffer.
* `SoundSynthesizer` — `src/src/hooks/use-sound-synthesizer.ts`;
  `playBiometricSounds` tone triggering.
* `CaptureInterface` — `src/src/components/capture-interface.tsx`; the
  orchestrator state (mode, biometric state, timer loops) and the
  `startCapture` / `stopCapture` transitions plus Soul Print assembly.

JavaScript double arithmetic is modelled with exact rationals (and with
reals where `Math.sqrt` / `Math.sin` / `Math.cos` appear); byte data from
`Uint8Array` / `ImageData` is modelled with natural numbers.
-/

/-- The FeatureVector triple produced per analysis tick: the shape of the
`biometricData` records (`{ intensity, harmonics, resonance }`) flowing from
the analyzers to the orchestrator. -/
structure FeatureVector (α : Type) where
  intensity : α
  harmonics : List α
  resonance : α
deriving DecidableEq

/-- The spec's stated range invariant for a FeatureVector: `intensity ∈ [0,1]`,
`harmonics` of length exactly 5 with every entry in `[0,1]`, `resonance ∈ [0,1]`. -/
def FeatureInRange {α : Type} [LinearOrderedField α] (v : FeatureVector α) : Prop :=
  0 ≤ v.intensity ∧ v.intensity ≤ 1 ∧ v.harmonics.length = 5 ∧
    (∀ h ∈ v.harmonics, 0 ≤ h ∧ h ≤ 1) ∧ 0 ≤ v.resonance ∧ v.resonance ≤ 1

namespace AudioAnalyzer

/-- The `for (let i = 0; ...)` accumulation `weightedSum += i * data[i]` from
the resonance (spectral centroid) loop, with the running index made explicit. -/
def weightedIndexSum : ℕ → List ℕ → ℕ
  | _, [] => 0
  | i, v :: rest => i * v + weightedIndexSum (i + 1) rest

/-- One frequency band of the harmonics loop: `slice(start, start + bandSize)`
averaged and normalized by 255 (`bandAvg = bandData.reduce(...) /
(bandData.length * 255)`). -/
def bandAverage (bins : List ℕ) (bandSize i : ℕ) : ℚ :=
  let bandData := (bins.drop (i * bandSize)).take bandSize
  (bandData.sum : ℚ) / ((bandData.length : ℚ) * 255)

/-- The per-tick computation `analyze` inside `AudioAnalyzer.startAnalysis`:
`intensity` is the mean bin magnitude over 255, `harmonics` are the five
band averages with `bandSize = Math.floor(length / 5)`, and `resonance` is
the normalized spectral centroid with the `magnitudeSum > 0` guard. -/
def analyze (bins : List ℕ) : FeatureVector ℚ :=
  let intensity : ℚ := (bins.sum : ℚ) / ((bins.length : ℚ) * 255)
  let bandSize := bins.length / 5
  let harmonics := (List.range 5).map (bandAverage bins bandSize)
  let resonance : ℚ :=
    if 0 < bins.sum then
      ((weightedIndexSum 0 bins : ℚ) / (bins.sum : ℚ)) / (bins.length : ℚ)
    else 0
  ⟨intensity, harmonics, resonance⟩

/-- Resource actions performed by `stopAnalysis` / `cleanup`:
`cancelAnimationFrame`, `microphone.disconnect()`, `audioContext.close()`. -/
inductive CleanupAction
  | cancelFrame (id : ℕ)
  | disconnectMic
  | closeContext
deriving DecidableEq

/-- The mutable fields of the `AudioAnalyzer` class that `stopAnalysis` and
`cleanup` read and write: `animationId` (nullable), and whether the
`microphone` node and the `audioContext` references are non-null. -/
structure State where
  animationId : Option ℕ
  microphone : Bool
  audioContext : Bool
deriving DecidableEq

/-- `stopAnalysis()`: cancels the pending animation frame if `animationId` is
set and nulls it; otherwise does nothing.  Returns the new field state and
the list of performed resource actions. -/
def stopAnalysis (s : State) : State × List CleanupAction :=
  match s.animationId with
  | some i => ({ s with animationId := none }, [.cancelFrame i])
  | none => (s, [])

/-- `cleanup()`: calls `stopAnalysis`, then disconnects the microphone node if
non-null and closes the audio context if non-null.  Note the source never
nulls `this.microphone` or `this.audioContext` afterwards. -/
def cleanup (s : State) : State × List CleanupAction :=
  let p := stopAnalysis s
  (p.1, p.2 ++ (if s.microphone then [.disconnectMic] else [])
           ++ (if s.audioContext then [.closeContext] else []))

end AudioAnalyzer

namespace ListFacts

/-- A mapped list sum as an index sum over `Finset.range` (any default). -/
theorem map_sum_eq_range {α β : Type} [AddCommMonoid β] (f : α → β) (d : α) :
    ∀ l : List α, (l.map f).sum = ∑ i ∈ Finset.range l.length, f (l.getD i d)
  | [] => by simp
  | a :: l => by
    rw [List.map_cons, List.sum_cons, map_sum_eq_range f d l, List.length_cons,
      Finset.sum_range_succ']
    simp [add_comm]

/-- A list-of-naturals sum as an index sum over `Finset.range`. -/
theorem sum_eq_range_getD (l : List ℕ) :
    l.sum = ∑ i ∈ Finset.range l.length, l.getD i 0 := by
  simpa using map_sum_eq_range (id : ℕ → ℕ) 0 l

end ListFacts

namespace AudioAnalyzer

theorem weightedIndexSum_eq (l : List ℕ) :
    ∀ k, weightedIndexSum k l = ∑ i ∈ Finset.range l.length, (k + i) * l.getD i 0 := by
  induction l with
  | nil => simp [weightedIndexSum]
  | cons v rest ih =>
    intro k
    rw [weightedIndexSum, ih (k + 1), List.length_cons, Finset.sum_range_succ']
    simp only [List.getD_cons_succ, List.getD_cons_zero]
    rw [add_comm]
    congr 1
    exact Finset.sum_congr rfl fun i _ => by ring_nf

/-- A contiguous slice sum expressed through indexed access into the whole
buffer, provided the slice stays inside the buffer. -/
theorem take_drop_sum (l : List ℕ) (s k : ℕ) (h : s + k ≤ l.length) :
    ((l.drop s).take k).sum = ∑ j ∈ Finset.range k, l.getD (s + j) 0 := by
  have hlen : ((l.drop s).take k).length = k := by
    simp only [List.length_take, List.length_drop]
    omega
  rw [ListFacts.sum_eq_range_getD, hlen]
  refine Finset.sum_congr rfl fun j hj => ?_
  have hjk : j < k := Finset.mem_range.mp hj
  simp [List.getD_eq_getElem?_getD, List.getElem?_take, List.getElem?_drop, hjk]

/-- The harmonics list of a tick, entrywise: when `i < 5`, the `i`-th entry is
the average of the `i`-th band. -/
theorem analyze_harmonics_getD (bins : List ℕ) (i : ℕ) (hi : i < 5) :
    (analyze bins).harmonics.getD i 0 = bandAverage bins (bins.length / 5) i := by
  have hlen : ((List.range 5).map (bandAverage bins (bins.length / 5))).length = 5 := by
    simp
  rw [analyze]
  simp only
  rw [List.getD_eq_getElem?_getD, List.getElem?_eq_getElem (by omega), Option.getD_some,
    List.getElem_map, List.getElem_range]

theorem bandAverage_nonneg (bins : List ℕ) (b i : ℕ) : 0 ≤ bandAverage bins b i := by
  unfold bandAverage
  positivity

theorem bandAverage_le_one (bins : List ℕ) (b i : ℕ)
    (h255 : ∀ x ∈ bins, x ≤ 255) : bandAverage bins b i ≤ 1 := by
  unfold bandAverage
  set band := (bins.drop (i * b)).take b with hband
  rcases Nat.eq_zero_or_pos band.length with h0 | hpos
  · simp [List.length_eq_zero.mp h0]
  · rw [div_le_one (by positivity)]
    have hmem : ∀ x ∈ band, x ≤ 255 := fun x hx =>
      h255 x (List.mem_of_mem_drop (List.mem_of_mem_take hx))
    have hsum : band.sum ≤ band.length * 255 := by
      simpa [smul_eq_mul] using List.sum_le_card_nsmul band 255 hmem
    calc ((band.sum : ℚ)) ≤ ((band.length * 255 : ℕ) : ℚ) := by exact_mod_cast hsum
      _ = (band.length : ℚ) * 255 := by push_cast; ring

/-- The weighted index sum is at most `(length − 1)` times the plain sum. -/
theorem weightedIndexSum_le (l : List ℕ) (hl : 0 < l.length) :
    weightedIndexSum 0 l ≤ (l.length - 1) * l.sum := by
  rw [weightedIndexSum_eq, ListFacts.sum_eq_range_getD, Finset.mul_sum]
  refine Finset.sum_le_sum fun i hi => ?_
  have : i ≤ l.length - 1 := by
    have := Finset.mem_range.mp hi
    omega
  simpa using Nat.mul_le_mul_right (l.getD i 0) this

/-- Range invariant of a single audio analysis tick, for any frequency-bin
buffer of at least 5 byte-valued bins (the analyzer's own buffer has 128). -/
theorem analyze_inRange (bins : List ℕ) (h5 : 5 ≤ bins.length)
    (h255 : ∀ x ∈ bins, x ≤ 255) : FeatureInRange (analyze bins) := by
  have hn : (0 : ℚ) < (bins.length : ℚ) := by exact_mod_cast Nat.lt_of_lt_of_le (by norm_num) h5
  have hsum255 : bins.sum ≤ bins.length * 255 := by
    simpa [smul_eq_mul] using List.sum_le_card_nsmul bins 255 h255
  refine ⟨?_, ?_, ?_, ?_, ?_, ?_⟩
  · exact div_nonneg (by positivity) (by positivity)
  · rw [analyze]
    simp only
    rw [div_le_one (by positivity)]
    calc ((bins.sum : ℚ)) ≤ ((bins.length * 255 : ℕ) : ℚ) := by exact_mod_cast hsum255
      _ = (bins.length : ℚ) * 255 := by push_cast; ring
  · simp [analyze]
  · intro h hh
    rw [analyze] at hh
    simp only [List.mem_map] at hh
    obtain ⟨i, _, rfl⟩ := hh
    exact ⟨bandAverage_nonneg _ _ _, bandAverage_le_one _ _ _ h255⟩
  · rw [analyze]
    simp only
    split
    · positivity
    · exact le_refl 0
  · rw [analyze]
    simp only
    split
    · rename_i hpos
      have hS : (0 : ℚ) < (bins.sum : ℚ) := by exact_mod_cast hpos
      have hW : (weightedIndexSum 0 bins : ℚ) ≤ ((bins.length - 1 : ℕ) : ℚ) * (bins.sum : ℚ) := by
        exact_mod_cast weightedIndexSum_le bins (by omega)
      have h1 : (weightedIndexSum 0 bins : ℚ) / (bins.sum : ℚ) ≤ ((bins.length - 1 : ℕ) : ℚ) := by
        rw [div_le_iff₀ hS]
        exact hW
      calc (weightedIndexSum 0 bins : ℚ) / (bins.sum : ℚ) / (bins.length : ℚ)
          ≤ ((bins.length - 1 : ℕ) : ℚ) / (bins.length : ℚ) := by gcongr
        _ ≤ 1 := by
            rw [div_le_one hn]
            exact_mod_cast Nat.sub_le _ _
    · exact zero_le_one

/-- An all-zero buffer (the analyzer's 128-bin buffer with silence) yields the
all-zero FeatureVector. -/
theorem analyze_replicate_zero : analyze (List.replicate 128 0) = ⟨0, List.replicate 5 0, 0⟩ := by
  have hgetD : ∀ i : ℕ, (List.replicate 128 (0 : ℕ)).getD i 0 = 0 := by
    intro i
    rw [List.getD_eq_getElem?_getD, List.getElem?_replicate]
    split <;> rfl
  rw [analyze]
  simp only [FeatureVector.mk.injEq]
  refine ⟨?_, ?_, ?_⟩
  · rw [List.sum_replicate]
    norm_num
  · rw [List.eq_replicate_iff]
    refine ⟨by simp, ?_⟩
    intro b hb
    obtain ⟨i, _, rfl⟩ := List.mem_map.mp hb
    unfold bandAverage
    rw [List.drop_replicate, List.take_replicate]
    simp [List.sum_replicate]
  · rw [if_neg]
    rw [List.sum_replicate]
    simp

end AudioAnalyzer

/-- C2: for every frequency-bin byte buffer of length `n > 0` with entries in
0..255, one analysis tick computes `intensity = (Σ bins) / (n·255)` and
`resonance = ((Σ i·bins[i]) / (Σ bins[i])) / n` when `Σ bins[i] > 0`, and
`resonance = 0` when `Σ bins[i] = 0`; and the analyzer's all-zero 128-bin
buffer yields intensity 0, resonance 0 and all five harmonics 0. -/
theorem c2_analyze_intensity_resonance (bins : List ℕ) (_hn : 0 < bins.length)
    (_h255 : ∀ x ∈ bins, x ≤ 255) :
    (AudioAnalyzer.analyze bins).intensity =
        (∑ i ∈ Finset.range bins.length, (bins.getD i 0 : ℚ)) / ((bins.length : ℚ) * 255)
      ∧ (0 < ∑ i ∈ Finset.range bins.length, bins.getD i 0 →
          (AudioAnalyzer.analyze bins).resonance =
            ((∑ i ∈ Finset.range bins.length, ((i : ℚ) * (bins.getD i 0 : ℚ)))
                / (∑ i ∈ Finset.range bins.length, (bins.getD i 0 : ℚ)))
              / (bins.length : ℚ))
      ∧ ((∑ i ∈ Finset.range bins.length, bins.getD i 0) = 0 →
          (AudioAnalyzer.analyze bins).resonance = 0)
      ∧ AudioAnalyzer.analyze (List.replicate 128 0) = ⟨0, List.replicate 5 0, 0⟩ := by
  have hsum : bins.sum = ∑ i ∈ Finset.range bins.length, bins.getD i 0 :=
    ListFacts.sum_eq_range_getD bins
  refine ⟨?_, ?_, ?_, AudioAnalyzer.analyze_replicate_zero⟩
  · rw [AudioAnalyzer.analyze]
    simp only
    rw [hsum]
    push_cast
    rfl
  · intro hpos
    rw [AudioAnalyzer.analyze]
    simp only
    rw [if_pos (by rw [hsum]; exact hpos)]
    rw [AudioAnalyzer.weightedIndexSum_eq, hsum]
    push_cast
    simp
  · intro hzero
    rw [AudioAnalyzer.analyze]
    simp only
    rw [if_neg (by rw [hsum]; omega)]

/-- Witness for C2 at a concrete 128-bin buffer. -/
theorem c2_witness :
    (AudioAnalyzer.analyze (List.replicate 127 0 ++ [255])).intensity =
        (∑ i ∈ Finset.range (List.replicate 127 0 ++ [255]).length,
            ((List.replicate 127 0 ++ [255]).getD i 0 : ℚ))
          / (((List.replicate 127 0 ++ [255]).length : ℚ) * 255) :=
  (c2_analyze_intensity_resonance (List.replicate 127 0 ++ [255]) (by simp)
    (by
      intro x hx
      rcases List.mem_append.mp hx with h | h
      · simp [List.eq_of_mem_replicate h]
      · have := List.mem_singleton.mp h
        omega)).1

/-- C3: for buffers of length `n ≥ 5`, the `i`-th harmonic (`i < 5`) is the
mean of the `i`-th contiguous band of width `⌊n/5⌋` divided by 255 (band `i`
covers bins `i·⌊n/5⌋ .. (i+1)·⌊n/5⌋ − 1`); consequently for `n = 128` the
trailing 3 bins influence no harmonic: two 128-bin buffers agreeing on their
first 125 bins have identical harmonics. -/
theorem c3_harmonic_bands (bins bins' : List ℕ) (h5 : 5 ≤ bins.length) :
    (∀ i, i < 5 →
        (AudioAnalyzer.analyze bins).harmonics.getD i 0 =
          (∑ j ∈ Finset.range (bins.length / 5),
              (bins.getD (i * (bins.length / 5) + j) 0 : ℚ))
            / (((bins.length / 5 : ℕ) : ℚ) * 255))
      ∧ (bins.length = 128 → bins'.length = 128 → bins.take 125 = bins'.take 125 →
          (AudioAnalyzer.analyze bins).harmonics = (AudioAnalyzer.analyze bins').harmonics) := by
  constructor
  · intro i hi
    rw [AudioAnalyzer.analyze_harmonics_getD bins i hi, AudioAnalyzer.bandAverage]
    have hb : 5 * (bins.length / 5) ≤ bins.length := by
      have := Nat.div_mul_le_self bins.length 5
      omega
    have hin : i * (bins.length / 5) + bins.length / 5 ≤ bins.length := by
      have : (i + 1) * (bins.length / 5) ≤ 5 * (bins.length / 5) :=
        Nat.mul_le_mul_right _ (by omega)
      calc i * (bins.length / 5) + bins.length / 5 = (i + 1) * (bins.length / 5) := by ring
        _ ≤ 5 * (bins.length / 5) := this
        _ ≤ bins.length := hb
    have hlen : ((bins.drop (i * (bins.length / 5))).take (bins.length / 5)).length
        = bins.length / 5 := by
      simp only [List.length_take, List.length_drop]
      omega
    rw [AudioAnalyzer.take_drop_sum bins _ _ hin, hlen]
    push_cast
    rfl
  · intro hlen hlen' htake
    have hd : ∀ m, m < 125 → bins.getD m 0 = bins'.getD m 0 := by
      intro m hm
      have h1 : (bins.take 125).getD m 0 = bins.getD m 0 := by
        simp [List.getD_eq_getElem?_getD, List.getElem?_take, hm]
      have h2 : (bins'.take 125).getD m 0 = bins'.getD m 0 := by
        simp [List.getD_eq_getElem?_getD, List.getElem?_take, hm]
      rw [← h1, ← h2, htake]
    rw [AudioAnalyzer.analyze, AudioAnalyzer.analyze]
    simp only
    rw [hlen, hlen']
    have hb : (128 : ℕ) / 5 = 25 := rfl
    rw [hb]
    refine List.map_congr_left fun i hi => ?_
    have hi5 : i < 5 := List.mem_range.mp hi
    rw [AudioAnalyzer.bandAverage, AudioAnalyzer.bandAverage]
    have hsum1 := AudioAnalyzer.take_drop_sum bins (i * 25) 25 (by rw [hlen]; omega)
    have hsum2 := AudioAnalyzer.take_drop_sum bins' (i * 25) 25 (by rw [hlen']; omega)
    have hl1 : ((bins.drop (i * 25)).take 25).length = 25 := by
      simp only [List.length_take, List.length_drop, hlen]
      omega
    have hl2 : ((bins'.drop (i * 25)).take 25).length = 25 := by
      simp only [List.length_take, List.length_drop, hlen']
      omega
    have hnat : (∑ j ∈ Finset.range 25, bins.getD (i * 25 + j) 0)
        = ∑ j ∈ Finset.range 25, bins'.getD (i * 25 + j) 0 :=
      Finset.sum_congr rfl fun j hj => hd _ (by have := Finset.mem_range.mp hj; omega)
    rw [hsum1, hsum2, hl1, hl2, hnat]

/-- Witness for C3 at a concrete 5-bin buffer, band 0. -/
theorem c3_witness :
    (AudioAnalyzer.analyze [255, 0, 0, 0, 0]).harmonics.getD 0 0 =
      (∑ j ∈ Finset.range ([255, 0, 0, 0, 0].length / 5),
          (([255, 0, 0, 0, 0].getD (0 * ([255, 0, 0, 0, 0].length / 5) + j) 0 : ℚ)))
        / ((([255, 0, 0, 0, 0].length / 5 : ℕ) : ℚ) * 255) :=
  (c3_harmonic_bands [255, 0, 0, 0, 0] [] (by norm_num)).1 0 (by norm_num)

namespace FacialAnalyzer

/-- One RGBA pixel of an `ImageData` buffer; the analyzer only ever reads the
R, G, B channels (`data[i]`, `data[i+1]`, `data[i+2]`, stepping by 4). -/
structure Pixel where
  r : ℕ
  g : ℕ
  b : ℕ
deriving DecidableEq

/-- A captured video frame drawn to the off-screen canvas: its intrinsic
width and height (`video.videoWidth` / `video.videoHeight`) and its pixel
grid in row-major order. -/
structure Frame where
  width : ℕ
  height : ℕ
  rows : List (List Pixel)
deriving DecidableEq

/-- Well-formedness of a frame: the pixel grid really has `height` rows of
`width` pixels each. -/
def Frame.WF (f : Frame) : Prop :=
  f.rows.length = f.height ∧ ∀ r ∈ f.rows, r.length = f.width

instance (f : Frame) : Decidable f.WF := by
  unfold Frame.WF
  infer_instance

/-- The luminance of one pixel, exactly as the source computes it:
`(0.299 * r + 0.587 * g + 0.114 * b) / 255`. -/
def lum (p : Pixel) : ℚ :=
  (299 / 1000 * p.r + 587 / 1000 * p.g + 114 / 1000 * p.b) / 255

/-- `context.getImageData(sx, sy, sw, sh)` on the canvas holding the frame:
the sub-grid of `sh` rows starting at row `sy`, each cut to `sw` pixels
starting at column `sx`. -/
def region (f : Frame) (sx sy sw sh : ℕ) : List (List Pixel) :=
  ((f.rows.drop sy).take sh).map fun row => (row.drop sx).take sw

/-- The flat pixel sequence of an `ImageData` (its `data` array read in
row-major order, 4 bytes per pixel). -/
def pixList (rs : List (List Pixel)) : List Pixel :=
  rs.flatten

/-- Mean luminance of a pixel list (`totalBrightness / pixels`). -/
def meanLum (ps : List Pixel) : ℚ :=
  ((ps.map lum).sum) / (ps.length : ℚ)

/-- Luminance variance of a pixel list (`contrastSum / pixels`, before the
square root is taken). -/
def varLum (ps : List Pixel) : ℚ :=
  ((ps.map fun p => (lum p - meanLum ps) ^ 2).sum) / (ps.length : ℚ)

/-- The symmetry loop's accumulated difference: left half and right half are
read out flat and compared at the same flat offset
(`leftHalf.data[i]` against `rightHalf.data[i]`). -/
def symDiffSum (f : Frame) : ℚ :=
  let halfW := f.width / 2
  let left := pixList (region f 0 0 halfW f.height)
  let right := pixList (region f halfW 0 halfW f.height)
  ((left.zip right).map fun p => |lum p.1 - lum p.2|).sum

/-- `symmetry = 1 - (symmetryDiff / (leftHalf.data.length / 4))`. -/
def symmetryRaw (f : Frame) : ℚ :=
  let halfW := f.width / 2
  let left := pixList (region f 0 0 halfW f.height)
  1 - symDiffSum f / (left.length : ℚ)

/-- `Math.min(1, Math.max(0, x))`. -/
def clamp01 {α : Type} [LinearOrderedField α] (x : α) : α :=
  min 1 (max 0 x)

/-- `Math.min(1, Math.max(-1, x))`. -/
def clampNeg1 {α : Type} [LinearOrderedField α] (x : α) : α :=
  min 1 (max (-1) x)

/-- The FacialMetrics record produced per analyzed frame. -/
structure FacialMetrics where
  brightness : ℝ
  contrast : ℝ
  symmetry : ℝ
  expressionIntensity : ℝ
  emotionalValence : ℝ

/-- The neutral record returned by the `catch` branch of
`analyzeFacialMetrics`. -/
noncomputable def fallbackMetrics : FacialMetrics :=
  ⟨0.5, 0.5, 0.5, 0.5, 0⟩

/-- `FacialAnalyzer.analyzeFacialMetrics`.  The whole body runs in a
`try`/`catch`; `getImageData` throws `IndexSizeError` when asked for a
zero-sized rectangle, which happens exactly when the frame has zero height
or width < 2 (the half-width `getImageData` calls truncate `width / 2` to an
integer), and then the neutral fallback is returned.  Otherwise:
brightness is mean luminance, contrast is `sqrt(variance) * 4`, symmetry
compares the two half buffers flat-offset by flat-offset, expression
intensity is `sqrt(variance of the lower 40% of the rows) * 2` with
`lowerFaceY = Math.floor(height * 0.6)` (= `3·height/5` truncated), valence
is `(brightness - 0.5) * 2`; every output is clamped to its range.
`Math.sqrt` forces this definition into `ℝ`; all other arithmetic is the
exact rational image of the source's float arithmetic. -/
noncomputable def analyzeFacialMetrics (f : Frame) : FacialMetrics :=
  if f.width < 2 ∨ f.height = 0 then fallbackMetrics
  else
    let ps := pixList f.rows
    let avgBrightness : ℚ := meanLum ps
    let lowerFaceY := 3 * f.height / 5
    let lowerPs := pixList (region f 0 lowerFaceY f.width (f.height - lowerFaceY))
    { brightness := ((clamp01 avgBrightness : ℚ) : ℝ)
      contrast := clamp01 (Real.sqrt ((varLum ps : ℚ) : ℝ) * 4)
      symmetry := ((clamp01 (symmetryRaw f) : ℚ) : ℝ)
      expressionIntensity := clamp01 (Real.sqrt ((varLum lowerPs : ℚ) : ℝ) * 2)
      emotionalValence := ((clampNeg1 ((avgBrightness - 1 / 2) * 2) : ℚ) : ℝ) }

/-- `analyzeFacialMetrics` as seen through the `try`/`catch` for failures that
happen before any pixel is read (e.g. `drawImage` throwing): `none` models a
thrown error, which the `catch` converts to the neutral fallback. -/
noncomputable def analyzeFacialMetricsOpt : Option Frame → FacialMetrics
  | none => fallbackMetrics
  | some f => analyzeFacialMetrics f

/-- `FacialAnalyzer.captureFrame`: `canvas.toDataURL('image/jpeg', 0.8)` is a
browser black box, modelled as an optional encoded string; the `catch`
branch turns a thrown error (`none`) into the empty string. -/
def captureFrame : Option String → String
  | none => ""
  | some encoded => encoded

end FacialAnalyzer

/-- The video-mode conversion in `CaptureInterface`'s 100 ms analysis effect:
facial metrics are repackaged as `{ intensity, harmonics, resonance }`. -/
noncomputable def facialToFeature (m : FacialAnalyzer.FacialMetrics) : FeatureVector ℝ :=
  { intensity := m.brightness
    harmonics := [m.contrast, m.symmetry, m.expressionIntensity,
      |m.emotionalValence|, m.brightness]
    resonance := (m.expressionIntensity + |m.emotionalValence|) / 2 }

namespace FacialAnalyzer

theorem clamp01_nonneg {α : Type} [LinearOrderedField α] (x : α) : 0 ≤ clamp01 x :=
  le_min zero_le_one (le_max_left 0 x)

theorem clamp01_le_one {α : Type} [LinearOrderedField α] (x : α) : clamp01 x ≤ 1 :=
  min_le_left 1 _

theorem clampNeg1_ge {α : Type} [LinearOrderedField α] (x : α) : -1 ≤ clampNeg1 x :=
  le_min (by norm_num) (le_max_left (-1) x)

theorem clampNeg1_le_one {α : Type} [LinearOrderedField α] (x : α) : clampNeg1 x ≤ 1 :=
  min_le_left 1 _

/-- Pixels of a region are pixels of the frame. -/
theorem mem_of_mem_region {f : Frame} {sx sy sw sh : ℕ} {p : Pixel}
    (h : p ∈ pixList (region f sx sy sw sh)) : ∃ r ∈ f.rows, p ∈ r := by
  obtain ⟨r', hr', hp⟩ := List.mem_flatten.mp h
  obtain ⟨row, hrow, rfl⟩ := List.mem_map.mp hr'
  exact ⟨row, List.mem_of_mem_drop (List.mem_of_mem_take hrow),
    List.mem_of_mem_drop (List.mem_of_mem_take hp)⟩

/-- Length of a flattened grid whose rows all have the same length. -/
theorem pixList_length_const {L : List (List Pixel)} {w : ℕ}
    (h : ∀ r ∈ L, r.length = w) : (pixList L).length = L.length * w := by
  unfold pixList
  rw [List.length_flatten]
  have := List.sum_eq_card_nsmul (L.map List.length) w (by
    intro x hx
    obtain ⟨r, hr, rfl⟩ := List.mem_map.mp hx
    exact h r hr)
  simpa [smul_eq_mul] using this

theorem region_length (f : Frame) (sx sy sw sh : ℕ) :
    (region f sx sy sw sh).length = min sh (f.rows.length - sy) := by
  simp [region]

theorem region_row_length {f : Frame} (hwf : f.WF) (sx sy sw sh : ℕ) :
    ∀ r ∈ region f sx sy sw sh, r.length = min sw (f.width - sx) := by
  intro r hr
  obtain ⟨row, hrow, rfl⟩ := List.mem_map.mp hr
  have : row.length = f.width :=
    hwf.2 row (List.mem_of_mem_drop (List.mem_of_mem_take hrow))
  simp [List.length_take, List.length_drop, this]

/-- Mean luminance of a nonempty uniform pixel list. -/
theorem meanLum_const {ps : List Pixel} {c : ℚ} (h : ∀ p ∈ ps, lum p = c)
    (hne : ps.length ≠ 0) : meanLum ps = c := by
  unfold meanLum
  have hsum : (ps.map lum).sum = ps.length • c := by
    simpa [List.length_map] using List.sum_eq_card_nsmul (ps.map lum) c (by
      intro x hx
      obtain ⟨p, hp, rfl⟩ := List.mem_map.mp hx
      exact h p hp)
  rw [hsum]
  have hq : (ps.length : ℚ) ≠ 0 := by exact_mod_cast hne
  rw [nsmul_eq_mul, mul_comm, mul_div_assoc, div_self hq, mul_one]

/-- Luminance variance of a uniform pixel list is zero. -/
theorem varLum_const {ps : List Pixel} {c : ℚ} (h : ∀ p ∈ ps, lum p = c)
    (hm : meanLum ps = c) : varLum ps = 0 := by
  unfold varLum
  have : (ps.map fun p => (lum p - meanLum ps) ^ 2).sum = 0 := by
    apply List.sum_eq_zero
    intro x hx
    obtain ⟨p, hp, rfl⟩ := List.mem_map.mp hx
    rw [h p hp, hm]
    ring
  rw [this, zero_div]

/-- The symmetry accumulator vanishes on a frame whose pixels all share one
luminance. -/
theorem symDiffSum_const {f : Frame} {c : ℚ}
    (h : ∀ r ∈ f.rows, ∀ p ∈ r, lum p = c) : symDiffSum f = 0 := by
  unfold symDiffSum
  apply List.sum_eq_zero
  intro x hx
  obtain ⟨pq, hpq, rfl⟩ := List.mem_map.mp hx
  have hmem := List.of_mem_zip hpq
  obtain ⟨r1, hr1, hp1⟩ := mem_of_mem_region hmem.1
  obtain ⟨r2, hr2, hp2⟩ := mem_of_mem_region hmem.2
  rw [h r1 hr1 pq.1 hp1, h r2 hr2 pq.2 hp2]
  simp

theorem symmetryRaw_const {f : Frame} {c : ℚ}
    (h : ∀ r ∈ f.rows, ∀ p ∈ r, lum p = c) : symmetryRaw f = 1 := by
  unfold symmetryRaw
  rw [symDiffSum_const h]
  simp

end FacialAnalyzer

namespace FacialAnalyzer

/-- Every field of `analyzeFacialMetrics` lands in its stated range, for any
frame whatsoever (clamping, or the neutral fallback). -/
theorem analyzeFacialMetrics_range (f : Frame) :
    0 ≤ (analyzeFacialMetrics f).brightness ∧ (analyzeFacialMetrics f).brightness ≤ 1 ∧
    0 ≤ (analyzeFacialMetrics f).contrast ∧ (analyzeFacialMetrics f).contrast ≤ 1 ∧
    0 ≤ (analyzeFacialMetrics f).symmetry ∧ (analyzeFacialMetrics f).symmetry ≤ 1 ∧
    0 ≤ (analyzeFacialMetrics f).expressionIntensity ∧
    (analyzeFacialMetrics f).expressionIntensity ≤ 1 ∧
    -1 ≤ (analyzeFacialMetrics f).emotionalValence ∧
    (analyzeFacialMetrics f).emotionalValence ≤ 1 := by
  rw [analyzeFacialMetrics]
  split
  · unfold fallbackMetrics
    norm_num
  · simp only
    refine ⟨?_, ?_, clamp01_nonneg _, clamp01_le_one _, ?_, ?_, clamp01_nonneg _,
      clamp01_le_one _, ?_, ?_⟩
    · exact_mod_cast clamp01_nonneg _
    · exact_mod_cast clamp01_le_one _
    · exact_mod_cast clamp01_nonneg _
    · exact_mod_cast clamp01_le_one _
    · exact_mod_cast clampNeg1_ge _
    · exact_mod_cast clampNeg1_le_one _

/-- What `analyzeFacialMetrics` returns on a frame all of whose pixels are one
and the same pixel value `c` (with at least one full column pair and row). -/
theorem analyzeFacialMetrics_uniform (f : Frame) (hwf : f.WF) (hw : 2 ≤ f.width)
    (hh : 1 ≤ f.height) (c : Pixel) (hc : ∀ r ∈ f.rows, ∀ p ∈ r, p = c) :
    (analyzeFacialMetrics f).brightness = ((clamp01 (lum c) : ℚ) : ℝ) ∧
    (analyzeFacialMetrics f).contrast = clamp01 (0 : ℝ) ∧
    (analyzeFacialMetrics f).symmetry = ((clamp01 (1 : ℚ) : ℚ) : ℝ) ∧
    (analyzeFacialMetrics f).expressionIntensity = clamp01 (0 : ℝ) ∧
    (analyzeFacialMetrics f).emotionalValence
      = ((clampNeg1 ((lum c - 1 / 2) * 2) : ℚ) : ℝ) := by
  have hlumrows : ∀ r ∈ f.rows, ∀ p ∈ r, lum p = lum c := fun r hr p hp => by
    rw [hc r hr p hp]
  have hguard : ¬ (f.width < 2 ∨ f.height = 0) := by omega
  have hpslen : (pixList f.rows).length = f.height * f.width := by
    rw [pixList_length_const hwf.2, hwf.1]
  have hpsne : (pixList f.rows).length ≠ 0 := by
    rw [hpslen]
    exact Nat.mul_ne_zero (by omega) (by omega)
  have hpslum : ∀ p ∈ pixList f.rows, lum p = lum c := by
    intro p hp
    obtain ⟨r, hr, hpr⟩ := List.mem_flatten.mp hp
    exact hlumrows r hr p hpr
  have hmean : meanLum (pixList f.rows) = lum c := meanLum_const hpslum hpsne
  have hvar : varLum (pixList f.rows) = 0 := varLum_const hpslum hmean
  -- the lower-face region
  have hly : 3 * f.height / 5 < f.height :=
    Nat.div_lt_of_lt_mul (by omega)
  set ly := 3 * f.height / 5 with hlydef
  have hlowrows : ∀ r ∈ region f 0 ly f.width (f.height - ly), r.length = f.width := by
    intro r hr
    have := region_row_length hwf 0 ly f.width (f.height - ly) r hr
    simpa using this
  have hlowlen : (pixList (region f 0 ly f.width (f.height - ly))).length
      = (f.height - ly) * f.width := by
    rw [pixList_length_const hlowrows, region_length, hwf.1]
    congr 1
    omega
  have hlowne : (pixList (region f 0 ly f.width (f.height - ly))).length ≠ 0 := by
    rw [hlowlen]
    exact Nat.mul_ne_zero (by omega) (by omega)
  have hlowlum : ∀ p ∈ pixList (region f 0 ly f.width (f.height - ly)), lum p = lum c := by
    intro p hp
    obtain ⟨r, hr, hpr⟩ := mem_of_mem_region hp
    exact hlumrows r hr p hpr
  have hlowmean := meanLum_const hlowlum hlowne
  have hlowvar := varLum_const hlowlum hlowmean
  have hsym : symmetryRaw f = 1 := symmetryRaw_const hlumrows
  rw [analyzeFacialMetrics, if_neg hguard]
  simp only
  rw [hmean, hvar, hlowvar, hsym]
  norm_num [Real.sqrt_zero]

end FacialAnalyzer

namespace FacialAnalyzer

theorem clamp01_of_mem {α : Type} [LinearOrderedField α] (x : α) (h0 : 0 ≤ x)
    (h1 : x ≤ 1) : clamp01 x = x := by
  unfold clamp01
  rw [max_eq_right h0, min_eq_right h1]

theorem clampNeg1_of_mem {α : Type} [LinearOrderedField α] (x : α) (h0 : -1 ≤ x)
    (h1 : x ≤ 1) : clampNeg1 x = x := by
  unfold clampNeg1
  rw [max_eq_right h0, min_eq_right h1]

end FacialAnalyzer

/-- C6: whenever facial-metric extraction fails (a zero-sized frame making
`getImageData` throw, or any earlier failure modelled by `none`), the analyzer
returns the fixed neutral FacialMetrics (all four metrics 0.5, valence 0)
instead of propagating an error, and `captureFrame` returns the empty string
on failure instead of throwing. -/
theorem c6_extraction_failure_fallback :
    (∀ f : FacialAnalyzer.Frame, f.width < 2 ∨ f.height = 0 →
        FacialAnalyzer.analyzeFacialMetrics f = FacialAnalyzer.fallbackMetrics)
      ∧ FacialAnalyzer.analyzeFacialMetricsOpt none = FacialAnalyzer.fallbackMetrics
      ∧ FacialAnalyzer.captureFrame none = ""
      ∧ FacialAnalyzer.fallbackMetrics.brightness = 0.5
      ∧ FacialAnalyzer.fallbackMetrics.contrast = 0.5
      ∧ FacialAnalyzer.fallbackMetrics.symmetry = 0.5
      ∧ FacialAnalyzer.fallbackMetrics.expressionIntensity = 0.5
      ∧ FacialAnalyzer.fallbackMetrics.emotionalValence = 0 := by
  refine ⟨?_, rfl, rfl, rfl, rfl, rfl, rfl, rfl⟩
  intro f hf
  rw [FacialAnalyzer.analyzeFacialMetrics, if_pos hf]

/-- Witness for C6: a zero-sized frame yields the neutral fallback. -/
theorem c6_witness :
    FacialAnalyzer.analyzeFacialMetrics ⟨0, 0, []⟩ = FacialAnalyzer.fallbackMetrics :=
  c6_extraction_failure_fallback.1 ⟨0, 0, []⟩ (Or.inl (by norm_num))

/-- C7: a uniformly black frame yields brightness 0, contrast 0, symmetry 1,
expression intensity 0, valence −1; a uniformly white frame yields
brightness 1, valence 1, contrast 0, symmetry 1 (frames of at least 2×1 so
that extraction does not hit the zero-size failure path). -/
theorem c7_uniform_black_white (f : FacialAnalyzer.Frame) (hwf : f.WF)
    (hw : 2 ≤ f.width) (hh : 1 ≤ f.height) :
    ((∀ r ∈ f.rows, ∀ p ∈ r, p = (⟨0, 0, 0⟩ : FacialAnalyzer.Pixel)) →
        (FacialAnalyzer.analyzeFacialMetrics f).brightness = 0 ∧
        (FacialAnalyzer.analyzeFacialMetrics f).contrast = 0 ∧
        (FacialAnalyzer.analyzeFacialMetrics f).symmetry = 1 ∧
        (FacialAnalyzer.analyzeFacialMetrics f).expressionIntensity = 0 ∧
        (FacialAnalyzer.analyzeFacialMetrics f).emotionalValence = -1)
      ∧ ((∀ r ∈ f.rows, ∀ p ∈ r, p = (⟨255, 255, 255⟩ : FacialAnalyzer.Pixel)) →
        (FacialAnalyzer.analyzeFacialMetrics f).brightness = 1 ∧
        (FacialAnalyzer.analyzeFacialMetrics f).emotionalValence = 1 ∧
        (FacialAnalyzer.analyzeFacialMetrics f).contrast = 0 ∧
        (FacialAnalyzer.analyzeFacialMetrics f).symmetry = 1) := by
  constructor
  · intro hblack
    obtain ⟨hb, hcon, hsym, hexp, hval⟩ :=
      FacialAnalyzer.analyzeFacialMetrics_uniform f hwf hw hh ⟨0, 0, 0⟩ hblack
    have hl : FacialAnalyzer.lum ⟨0, 0, 0⟩ = 0 := by
      norm_num [FacialAnalyzer.lum]
    rw [hl] at hb hval
    refine ⟨?_, ?_, ?_, ?_, ?_⟩
    · rw [hb, FacialAnalyzer.clamp01_of_mem (0 : ℚ) le_rfl zero_le_one]
      norm_num
    · rw [hcon, FacialAnalyzer.clamp01_of_mem (0 : ℝ) le_rfl zero_le_one]
    · rw [hsym, FacialAnalyzer.clamp01_of_mem (1 : ℚ) zero_le_one le_rfl]
      norm_num
    · rw [hexp, FacialAnalyzer.clamp01_of_mem (0 : ℝ) le_rfl zero_le_one]
    · rw [hval, show ((0 : ℚ) - 1 / 2) * 2 = -1 by norm_num,
        FacialAnalyzer.clampNeg1_of_mem (-1 : ℚ) le_rfl (by norm_num)]
      norm_num
  · intro hwhite
    obtain ⟨hb, hcon, hsym, hexp, hval⟩ :=
      FacialAnalyzer.analyzeFacialMetrics_uniform f hwf hw hh ⟨255, 255, 255⟩ hwhite
    have hl : FacialAnalyzer.lum ⟨255, 255, 255⟩ = 1 := by
      norm_num [FacialAnalyzer.lum]
    rw [hl] at hb hval
    refine ⟨?_, ?_, ?_, ?_⟩
    · rw [hb, FacialAnalyzer.clamp01_of_mem (1 : ℚ) zero_le_one le_rfl]
      norm_num
    · rw [hval, show ((1 : ℚ) - 1 / 2) * 2 = 1 by norm_num,
        FacialAnalyzer.clampNeg1_of_mem (1 : ℚ) (by norm_num) le_rfl]
      norm_num
    · rw [hcon, FacialAnalyzer.clamp01_of_mem (0 : ℝ) le_rfl zero_le_one]
    · rw [hsym, FacialAnalyzer.clamp01_of_mem (1 : ℚ) zero_le_one le_rfl]
      norm_num

/-- Witness for C7 at concrete 2×1 frames, black and white. -/
theorem c7_witness :
    ((FacialAnalyzer.analyzeFacialMetrics ⟨2, 1, [[⟨0, 0, 0⟩, ⟨0, 0, 0⟩]]⟩).brightness = 0 ∧
      (FacialAnalyzer.analyzeFacialMetrics ⟨2, 1, [[⟨0, 0, 0⟩, ⟨0, 0, 0⟩]]⟩).contrast = 0 ∧
      (FacialAnalyzer.analyzeFacialMetrics ⟨2, 1, [[⟨0, 0, 0⟩, ⟨0, 0, 0⟩]]⟩).symmetry = 1 ∧
      (FacialAnalyzer.analyzeFacialMetrics ⟨2, 1,
        [[⟨0, 0, 0⟩, ⟨0, 0, 0⟩]]⟩).expressionIntensity = 0 ∧
      (FacialAnalyzer.analyzeFacialMetrics ⟨2, 1,
        [[⟨0, 0, 0⟩, ⟨0, 0, 0⟩]]⟩).emotionalValence = -1)
    ∧ ((FacialAnalyzer.analyzeFacialMetrics
          ⟨2, 1, [[⟨255, 255, 255⟩, ⟨255, 255, 255⟩]]⟩).brightness = 1 ∧
      (FacialAnalyzer.analyzeFacialMetrics
          ⟨2, 1, [[⟨255, 255, 255⟩, ⟨255, 255, 255⟩]]⟩).emotionalValence = 1 ∧
      (FacialAnalyzer.analyzeFacialMetrics
          ⟨2, 1, [[⟨255, 255, 255⟩, ⟨255, 255, 255⟩]]⟩).contrast = 0 ∧
      (FacialAnalyzer.analyzeFacialMetrics
          ⟨2, 1, [[⟨255, 255, 255⟩, ⟨255, 255, 255⟩]]⟩).symmetry = 1) :=
  ⟨(c7_uniform_black_white ⟨2, 1, [[⟨0, 0, 0⟩, ⟨0, 0, 0⟩]]⟩
      ⟨rfl, by intro r hr; simp at hr; simp [hr]⟩ (by norm_num) (by norm_num)).1
      (by intro r hr p hp; simp at hr; subst hr; simpa using hp),
   (c7_uniform_black_white ⟨2, 1, [[⟨255, 255, 255⟩, ⟨255, 255, 255⟩]]⟩
      ⟨rfl, by intro r hr; simp at hr; simp [hr]⟩ (by norm_num) (by norm_num)).2
      (by intro r hr p hp; simp at hr; subst hr; simpa using hp)⟩

namespace FacialAnalyzer

/-- Luminance of the frame pixel at column `x`, row `y` (out-of-range reads
default to a black pixel; all uses stay in range). -/
def lumAt (f : Frame) (x y : ℕ) : ℚ :=
  lum ((f.rows.getD y []).getD x ⟨0, 0, 0⟩)

/-- The zipped absolute-difference sum of two pixel lists, indexed. -/
theorem zip_diff_sum : ∀ as bs : List Pixel,
    ((as.zip bs).map fun p => |lum p.1 - lum p.2|).sum
      = ∑ x ∈ Finset.range (min as.length bs.length),
          |lum (as.getD x ⟨0, 0, 0⟩) - lum (bs.getD x ⟨0, 0, 0⟩)| := by
  intro as
  induction as with
  | nil => intro bs; simp
  | cons a as ih =>
    intro bs
    cases bs with
    | nil => simp
    | cons b bs =>
      rw [List.zip_cons_cons, List.map_cons, List.sum_cons, ih bs, List.length_cons,
        List.length_cons, Nat.succ_min_succ, Finset.sum_range_succ']
      simp only [List.getD_cons_succ, List.getD_cons_zero]
      rw [add_comm]

/-- Flattening commutes with the zipped difference sum when the two grids have
the same number of rows and matching row lengths. -/
theorem flatten_zip_diff_sum : ∀ L R : List (List Pixel), L.length = R.length →
    (∀ pr ∈ L.zip R, pr.1.length = pr.2.length) →
    ((L.flatten.zip R.flatten).map fun p => |lum p.1 - lum p.2|).sum
      = ((L.zip R).map fun pr =>
          ((pr.1.zip pr.2).map fun p => |lum p.1 - lum p.2|).sum).sum := by
  intro L
  induction L with
  | nil =>
    intro R hlen _
    cases R with
    | nil => simp
    | cons r R => simp at hlen
  | cons l L ih =>
    intro R hlen hrow
    cases R with
    | nil => simp at hlen
    | cons r R =>
      have hl : l.length = r.length := hrow (l, r) (by rw [List.zip_cons_cons]; simp)
      rw [List.flatten_cons, List.flatten_cons, List.zip_append hl, List.map_append,
        List.sum_append, List.zip_cons_cons, List.map_cons, List.sum_cons,
        ih R (by simpa using hlen)
          (fun pr hpr => hrow pr (by rw [List.zip_cons_cons]; exact List.mem_cons_of_mem _ hpr))]

/-- One frame row, split at the midline and compared offset-by-offset. -/
theorem row_half_diff_sum (r : List Pixel) (w halfW : ℕ) (hr : r.length = w)
    (hhw : halfW + halfW = w) :
    ((((r.drop 0).take halfW).zip ((r.drop halfW).take halfW)).map
        fun p => |lum p.1 - lum p.2|).sum
      = ∑ x ∈ Finset.range halfW,
          |lum (r.getD x ⟨0, 0, 0⟩) - lum (r.getD (halfW + x) ⟨0, 0, 0⟩)| := by
  rw [zip_diff_sum]
  have h1 : ((r.drop 0).take halfW).length = halfW := by
    simp only [List.length_take, List.length_drop, List.drop_zero, hr]
    omega
  have h2 : ((r.drop halfW).take halfW).length = halfW := by
    simp only [List.length_take, List.length_drop, hr]
    omega
  rw [h1, h2, min_self]
  refine Finset.sum_congr rfl fun x hx => ?_
  have hxh : x < halfW := Finset.mem_range.mp hx
  have e1 : ((r.drop 0).take halfW).getD x ⟨0, 0, 0⟩ = r.getD x ⟨0, 0, 0⟩ := by
    simp [List.getD_eq_getElem?_getD, List.getElem?_take, List.getElem?_drop, hxh]
  have e2 : ((r.drop halfW).take halfW).getD x ⟨0, 0, 0⟩ = r.getD (halfW + x) ⟨0, 0, 0⟩ := by
    simp [List.getD_eq_getElem?_getD, List.getElem?_take, List.getElem?_drop, hxh]
  rw [e1, e2]

/-- The symmetry loop's accumulator, written as a double sum over rows and
half-width offsets: the left-half pixel at offset `x` of row `y` is compared
with the pixel at the same offset `x` to the right of the midline. -/
theorem symDiffSum_eq_indexed (f : Frame) (hwf : f.WF) (heven : f.width % 2 = 0) :
    symDiffSum f
      = ∑ y ∈ Finset.range f.height, ∑ x ∈ Finset.range (f.width / 2),
          |lumAt f x y - lumAt f (f.width / 2 + x) y| := by
  have hhw : f.width / 2 + f.width / 2 = f.width := by omega
  have hregion0 : region f 0 0 (f.width / 2) f.height
      = f.rows.map fun row => (row.drop 0).take (f.width / 2) := by
    unfold region
    rw [← hwf.1]
    congr 1
    rw [List.drop_zero, List.take_length]
  have hregionH : region f (f.width / 2) 0 (f.width / 2) f.height
      = f.rows.map fun row => (row.drop (f.width / 2)).take (f.width / 2) := by
    unfold region
    rw [← hwf.1]
    congr 1
    rw [List.drop_zero, List.take_length]
  simp only [symDiffSum]
  rw [hregion0, hregionH]
  unfold pixList
  rw [flatten_zip_diff_sum _ _ (by simp) (by
    intro pr hpr
    rw [List.zip_map'] at hpr
    obtain ⟨r, hr, rfl⟩ := List.mem_map.mp hpr
    have hrw := hwf.2 r hr
    simp only [List.length_take, List.length_drop, List.drop_zero, hrw]
    omega)]
  rw [List.zip_map', List.map_map,
    ListFacts.map_sum_eq_range _ ([] : List Pixel) f.rows, hwf.1]
  refine Finset.sum_congr rfl fun y hy => ?_
  have hylt : y < f.rows.length := by rw [hwf.1]; exact Finset.mem_range.mp hy
  have hmem : f.rows.getD y [] ∈ f.rows := by
    rw [List.getD_eq_getElem?_getD, List.getElem?_eq_getElem hylt]
    exact List.getElem_mem hylt
  have hrw := hwf.2 _ hmem
  exact row_half_diff_sum (f.rows.getD y []) f.width (f.width / 2) hrw hhw

/-- Pixel count of the left-half `ImageData`. -/
theorem left_half_length (f : Frame) (hwf : f.WF) :
    (pixList (region f 0 0 (f.width / 2) f.height)).length = f.height * (f.width / 2) := by
  have hrows : ∀ r ∈ region f 0 0 (f.width / 2) f.height, r.length = f.width / 2 := by
    intro r hr
    have h := region_row_length hwf 0 0 (f.width / 2) f.height r hr
    rw [h, Nat.sub_zero]
    exact Nat.min_eq_left (Nat.div_le_self _ _)
  rw [pixList_length_const hrows, region_length, hwf.1, Nat.sub_zero, Nat.min_self]

/-- The symmetry metric as the spec claim words it — with MIRROR
correspondence: the left-half pixel at offset `x` from the left edge paired
with the right-half pixel at offset `x` from the RIGHT edge (column
`width − 1 − x`).  This definition follows the spec's words, for comparison
with `symmetryRaw`, which is translated from the source. -/
def symmetryMirror (f : Frame) : ℚ :=
  1 - (∑ y ∈ Finset.range f.height, ∑ x ∈ Finset.range (f.width / 2),
        |lumAt f x y - lumAt f (f.width - 1 - x) y|) / (((f.width / 2) * f.height : ℕ) : ℚ)

/-- A 4×1 frame striped white, black, white, black: its two halves are equal
as translated copies but are not mirror images. -/
def stripedFrame : Frame :=
  ⟨4, 1, [[⟨255, 255, 255⟩, ⟨0, 0, 0⟩, ⟨255, 255, 255⟩, ⟨0, 0, 0⟩]]⟩

end FacialAnalyzer

/-- C5 counterexample: on the striped 4×1 frame the source's symmetry metric
is 1 (the two halves are equal at equal offsets from the midline), while the
claim's mirror-correspondence formula gives 0 — so the symmetry metric is NOT
the mirror-paired mean difference the claim states. -/
theorem c5_counterexample :
    (FacialAnalyzer.analyzeFacialMetrics FacialAnalyzer.stripedFrame).symmetry = 1
      ∧ ((FacialAnalyzer.clamp01
          (FacialAnalyzer.symmetryMirror FacialAnalyzer.stripedFrame) : ℚ) : ℝ) = 0
      ∧ (FacialAnalyzer.analyzeFacialMetrics FacialAnalyzer.stripedFrame).symmetry
          ≠ ((FacialAnalyzer.clamp01
              (FacialAnalyzer.symmetryMirror FacialAnalyzer.stripedFrame) : ℚ) : ℝ) := by
  have h1 : (FacialAnalyzer.analyzeFacialMetrics FacialAnalyzer.stripedFrame).symmetry = 1 := by
    rw [FacialAnalyzer.analyzeFacialMetrics,
      if_neg (by norm_num [FacialAnalyzer.stripedFrame])]
    simp only
    have hraw : FacialAnalyzer.symmetryRaw FacialAnalyzer.stripedFrame = 1 := by
      norm_num [FacialAnalyzer.symmetryRaw, FacialAnalyzer.symDiffSum,
        FacialAnalyzer.region, FacialAnalyzer.pixList, FacialAnalyzer.lum,
        FacialAnalyzer.stripedFrame]
    rw [hraw, FacialAnalyzer.clamp01_of_mem (1 : ℚ) zero_le_one le_rfl]
    norm_num
  have h0 : ((FacialAnalyzer.clamp01
      (FacialAnalyzer.symmetryMirror FacialAnalyzer.stripedFrame) : ℚ) : ℝ) = 0 := by
    have hm : FacialAnalyzer.symmetryMirror FacialAnalyzer.stripedFrame = 0 := by
      norm_num [FacialAnalyzer.symmetryMirror, FacialAnalyzer.lumAt, FacialAnalyzer.lum,
        FacialAnalyzer.stripedFrame, Finset.sum_range_succ]
    rw [hm, FacialAnalyzer.clamp01_of_mem (0 : ℚ) le_rfl zero_le_one]
    norm_num
  refine ⟨h1, h0, ?_⟩
  rw [h1, h0]
  norm_num

/-- C5 amended: for a well-formed frame of even width ≥ 2 and height ≥ 1, the
symmetry metric equals 1 minus the mean absolute luminance difference between
the left-half pixel at offset `x` from the left edge and the right-half pixel
at the SAME offset `x` to the right of the midline (column `width/2 + x`) —
translational, not mirrored, correspondence — clamped to `[0,1]`. -/
theorem c5_amended (f : FacialAnalyzer.Frame) (hwf : f.WF) (hw : 2 ≤ f.width)
    (heven : f.width % 2 = 0) (hh : 1 ≤ f.height) :
    (FacialAnalyzer.analyzeFacialMetrics f).symmetry
      = ((FacialAnalyzer.clamp01 (1 -
          (∑ y ∈ Finset.range f.height, ∑ x ∈ Finset.range (f.width / 2),
            |FacialAnalyzer.lumAt f x y - FacialAnalyzer.lumAt f (f.width / 2 + x) y|)
          / (((f.width / 2) * f.height : ℕ) : ℚ)) : ℚ) : ℝ) := by
  have hguard : ¬ (f.width < 2 ∨ f.height = 0) := by omega
  rw [FacialAnalyzer.analyzeFacialMetrics, if_neg hguard]
  simp only
  congr 1
  simp only [FacialAnalyzer.symmetryRaw]
  rw [FacialAnalyzer.symDiffSum_eq_indexed f hwf heven, FacialAnalyzer.left_half_length f hwf,
    Nat.mul_comm]

/-- Witness for the amended C5 at the striped 4×1 frame. -/
theorem c5_witness :
    (FacialAnalyzer.analyzeFacialMetrics FacialAnalyzer.stripedFrame).symmetry
      = ((FacialAnalyzer.clamp01 (1 -
          (∑ y ∈ Finset.range FacialAnalyzer.stripedFrame.height,
            ∑ x ∈ Finset.range (FacialAnalyzer.stripedFrame.width / 2),
            |FacialAnalyzer.lumAt FacialAnalyzer.stripedFrame x y -
              FacialAnalyzer.lumAt FacialAnalyzer.stripedFrame
                (FacialAnalyzer.stripedFrame.width / 2 + x) y|)
          / (((FacialAnalyzer.stripedFrame.width / 2) *
              FacialAnalyzer.stripedFrame.height : ℕ) : ℚ)) : ℚ) : ℝ) :=
  c5_amended FacialAnalyzer.stripedFrame
    ⟨rfl, by
      intro r hr
      simp only [FacialAnalyzer.stripedFrame] at hr
      rw [List.mem_singleton] at hr
      subst hr
      rfl⟩
    (by norm_num [FacialAnalyzer.stripedFrame])
    (by norm_num [FacialAnalyzer.stripedFrame])
    (by norm_num [FacialAnalyzer.stripedFrame])

/-- The three capture modes of the orchestrator. -/
inductive CaptureMode
  | audio
  | video
  | ambient
deriving DecidableEq

/-- `generateVisualSignature()` output. -/
structure VisualSignature where
  primaryHue : ℤ
  saturation : ℝ
  complexity : ℝ
  patterns : List ℝ
  captureMethod : CaptureMode

/-- `generateAudioSignature()` output. -/
structure AudioSignature where
  baseFrequency : ℝ
  harmonicSeries : List ℝ
  resonanceDepth : ℝ
  rhythmPattern : List ℝ
  captureMethod : CaptureMode

/-- The Soul Print record assembled by `stopCapture` (`Date.now()` is modelled
as a natural-number clock reading; `id` is its string form, kept numeric). -/
structure SoulPrint where
  id : ℕ
  timestamp : ℕ
  captureMode : CaptureMode
  biometricData : FeatureVector ℝ
  visualSignature : VisualSignature
  audioSignature : AudioSignature
  capturedFrame : Option String

namespace CaptureInterface

/-- The ambient-mode synthetic generator (the 150 ms `setInterval` body in
`startCapture`): trigonometric functions of the wall-clock time `t` in
milliseconds (`Date.now()`), with the harmonics produced by mapping over the
previous harmonics with the band index. -/
noncomputable def ambientFeature (t : ℝ) (prevHarmonics : List ℝ) : FeatureVector ℝ :=
  { intensity := 0.3 + Real.sin (t / 1000) * 0.2
    harmonics := prevHarmonics.mapIdx fun i _ => 0.3 + Real.sin (t / 1000 + i) * 0.3
    resonance := 0.4 + Real.cos (t / 800) * 0.2 }

/-- The orchestrator's state: the `isCapturing` / `captureMode` /
`biometricData` React state, and which periodic activities are live —
the audio analyzer's animation-frame loop, the 100 ms video analysis
interval (`analysisIntervalRef`), and the ambient 150 ms interval together
with the deadline of the `setTimeout(…, 30000)` that is the only code
clearing it. -/
structure State where
  isCapturing : Bool
  captureMode : CaptureMode
  biometricData : FeatureVector ℝ
  audioLoopActive : Bool
  videoIntervalActive : Bool
  ambientIntervalActive : Bool
  ambientCancelAt : Option ℕ

/-- The initial `biometricData` state (`useState` initializer). -/
noncomputable def initialBiometricData : FeatureVector ℝ :=
  ⟨0.3, [0.4, 0.6, 0.5, 0.8, 0.3], 0.5⟩

/-- The component's initial state: idle, audio mode selected, default
biometric data, no loop running. -/
noncomputable def initState : State :=
  ⟨false, .audio, initialBiometricData, false, false, false, none⟩

/-- The sound-triggering loop's liveness: the effect keyed on
`[isCapturing, biometricData, …]` creates the 800 ms interval exactly when
`isCapturing && biometricData.intensity > 0.1`, and its cleanup clears it
whenever either turns false. -/
def soundLoopActive (s : State) : Prop :=
  s.isCapturing = true ∧ s.biometricData.intensity > 0.1

/-- `startCapture()`’s successful path for each mode: flips `isCapturing`,
records the mode, and starts the mode's feature-producing loop.  In ambient
mode the 150 ms interval starts and a 30-second timeout from the start time
`t` is scheduled to clear it (`setTimeout(() => clearInterval(...), 30000)`). -/
noncomputable def startCapture (mode : CaptureMode) (t : ℕ) (s : State) : State :=
  match mode with
  | .audio => { s with isCapturing := true, captureMode := .audio, audioLoopActive := true }
  | .video => { s with isCapturing := true, captureMode := .video, videoIntervalActive := true }
  | .ambient =>
    { s with
      isCapturing := true
      captureMode := .ambient
      ambientIntervalActive := true
      ambientCancelAt := some (t + 30000) }

/-- `generateVisualSignature()`. -/
noncomputable def generateVisualSignature (d : FeatureVector ℝ) (mode : CaptureMode) :
    VisualSignature :=
  ⟨Int.floor (d.intensity * 360), d.resonance,
    d.harmonics.sum / (d.harmonics.length : ℝ), d.harmonics, mode⟩

/-- `generateAudioSignature()`. -/
noncomputable def generateAudioSignature (d : FeatureVector ℝ) (mode : CaptureMode) :
    AudioSignature :=
  ⟨220 + d.intensity * 220, d.harmonics.map fun h => h * 880, d.resonance, d.harmonics, mode⟩

/-- `stopCapture()` at clock time `t` with `frameStr` the result of the final
still-frame capture in video mode: stops the media tracks and audio analysis,
clears `analysisIntervalRef`, flips `isCapturing` off (which also tears down
the sound-loop effect), and assembles the SoulPrint from the current
`biometricData`.  Note it does NOT touch the ambient interval — no reference
to it survives outside `startCapture`'s closure. -/
noncomputable def stopCapture (t : ℕ) (frameStr : String) (s : State) : State × SoulPrint :=
  ({ s with isCapturing := false, audioLoopActive := false, videoIntervalActive := false },
   { id := t
     timestamp := t
     captureMode := s.captureMode
     biometricData := s.biometricData
     visualSignature := generateVisualSignature s.biometricData s.captureMode
     audioSignature := generateAudioSignature s.biometricData s.captureMode
     capturedFrame := if s.captureMode = .video ∧ frameStr ≠ "" then some frameStr else none })

/-- One firing of the ambient 150 ms interval at wall-clock time `t`: if the
interval is still scheduled it overwrites `biometricData` with the synthetic
FeatureVector; otherwise nothing happens. -/
noncomputable def ambientTick (t : ℝ) (s : State) : State :=
  if s.ambientIntervalActive then
    { s with biometricData := ambientFeature t s.biometricData.harmonics }
  else s

/-- The firing of the ambient 30-second `setTimeout`: clears the interval. -/
noncomputable def ambientTimeout (s : State) : State :=
  { s with ambientIntervalActive := false, ambientCancelAt := none }

/-- A FeatureVector computed by the audio analyzer, as the orchestrator's
real-valued state stores it. -/
noncomputable def featureCast (v : FeatureVector ℚ) : FeatureVector ℝ :=
  ⟨(v.intensity : ℝ), v.harmonics.map fun q => (q : ℝ), (v.resonance : ℝ)⟩

/-- One tick of the audio analyzer's animation-frame loop: only updates the
orchestrator while that loop is scheduled. -/
noncomputable def audioTickEvent (bins : List ℕ) (s : State) : State :=
  if s.audioLoopActive then { s with biometricData := featureCast (AudioAnalyzer.analyze bins) }
  else s

/-- One firing of the 100 ms video analysis interval: only updates the
orchestrator while `analysisIntervalRef` is set. -/
noncomputable def videoTickEvent (f : FacialAnalyzer.Frame) (s : State) : State :=
  if s.videoIntervalActive then
    { s with biometricData := facialToFeature (FacialAnalyzer.analyzeFacialMetrics f) }
  else s

end CaptureInterface

/-- C1: every FeatureVector produced for the orchestrator is range-correct —
the audio analyzer's per-tick computation over any byte buffer of the
analyzer's shape (at least the 5 bands' worth of bins; the source buffer has
128, entries 0..255), the facial-metrics-to-FeatureVector mapping of video
mode on any frame, and the ambient synthetic generator at any wall-clock time
(over the length-5 harmonics state it maps) each give `intensity ∈ [0,1]`,
`harmonics` of length exactly 5 with every entry in `[0,1]`, and
`resonance ∈ [0,1]`. -/
theorem c1_feature_vector_ranges :
    (∀ bins : List ℕ, 5 ≤ bins.length → (∀ x ∈ bins, x ≤ 255) →
        FeatureInRange (AudioAnalyzer.analyze bins))
      ∧ (∀ f : FacialAnalyzer.Frame,
        FeatureInRange (facialToFeature (FacialAnalyzer.analyzeFacialMetrics f)))
      ∧ (∀ (t : ℝ) (prev : List ℝ), prev.length = 5 →
        FeatureInRange (CaptureInterface.ambientFeature t prev)) := by
  refine ⟨AudioAnalyzer.analyze_inRange, ?_, ?_⟩
  · intro f
    obtain ⟨hb0, hb1, hc0, hc1, hs0, hs1, he0, he1, hv0, hv1⟩ :=
      FacialAnalyzer.analyzeFacialMetrics_range f
    have habs : |(FacialAnalyzer.analyzeFacialMetrics f).emotionalValence| ≤ 1 :=
      abs_le.mpr ⟨hv0, hv1⟩
    refine ⟨hb0, hb1, rfl, ?_, ?_, ?_⟩
    · intro h hh
      simp only [facialToFeature, List.mem_cons, List.not_mem_nil, or_false] at hh
      rcases hh with rfl | rfl | rfl | rfl | rfl
      · exact ⟨hc0, hc1⟩
      · exact ⟨hs0, hs1⟩
      · exact ⟨he0, he1⟩
      · exact ⟨abs_nonneg _, habs⟩
      · exact ⟨hb0, hb1⟩
    · unfold facialToFeature
      positivity
    · unfold facialToFeature
      simp only
      rw [div_le_one (by norm_num)]
      have := abs_nonneg (FacialAnalyzer.analyzeFacialMetrics f).emotionalValence
      linarith
  · intro t prev hlen
    unfold CaptureInterface.ambientFeature
    have hs1 := Real.neg_one_le_sin (t / 1000)
    have hs2 := Real.sin_le_one (t / 1000)
    have hc1 := Real.neg_one_le_cos (t / 800)
    have hc2 := Real.cos_le_one (t / 800)
    refine ⟨by norm_num; nlinarith, by norm_num; nlinarith, by simp [hlen], ?_,
      by norm_num; nlinarith, by norm_num; nlinarith⟩
    intro h hh
    simp only at hh
    rw [List.mapIdx_eq_enum_map] at hh
    obtain ⟨p, _, rfl⟩ := List.mem_map.mp hh
    have h1 := Real.neg_one_le_sin (t / 1000 + p.1)
    have h2 := Real.sin_le_one (t / 1000 + p.1)
    constructor <;> simp [Function.uncurry] <;> nlinarith

/-- Witness for C1: the audio buffer of 128 silent bins, a zero-sized frame
(fallback metrics), and the ambient generator at time 0 over the default
harmonics. -/
theorem c1_witness :
    FeatureInRange (AudioAnalyzer.analyze (List.replicate 128 0))
      ∧ FeatureInRange (facialToFeature (FacialAnalyzer.analyzeFacialMetrics ⟨0, 0, []⟩))
      ∧ FeatureInRange (CaptureInterface.ambientFeature 0 [0.4, 0.6, 0.5, 0.8, 0.3]) :=
  ⟨c1_feature_vector_ranges.1 (List.replicate 128 0) (by norm_num)
      (fun x hx => by simp [List.eq_of_mem_replicate hx]),
   c1_feature_vector_ranges.2.1 ⟨0, 0, []⟩,
   c1_feature_vector_ranges.2.2 0 [0.4, 0.6, 0.5, 0.8, 0.3] (by norm_num)⟩

/-- C4 counterexample: in ambient mode, `stopCapture` does NOT cancel the
150 ms synthetic generator — the interval flag is still set after `stop()`,
and a subsequent interval firing (here at wall-clock `500·π` ms, i.e. sine of
π/2) still overwrites `biometricData`, producing a fresh FeatureVector after
the session stopped.  Only the 30-second timeout scheduled at `start()` ever
clears that interval. -/
theorem c4_counterexample :
    ((CaptureInterface.stopCapture 1 ""
        (CaptureInterface.startCapture .ambient 0 CaptureInterface.initState)).1).ambientIntervalActive
      = true
    ∧ (CaptureInterface.ambientTick (500 * Real.pi)
        ((CaptureInterface.stopCapture 1 ""
          (CaptureInterface.startCapture .ambient 0 CaptureInterface.initState)).1)).biometricData.intensity
      ≠ ((CaptureInterface.stopCapture 1 ""
          (CaptureInterface.startCapture .ambient 0 CaptureInterface.initState)).1).biometricData.intensity := by
  constructor
  · rfl
  · simp only [CaptureInterface.stopCapture, CaptureInterface.startCapture,
      CaptureInterface.initState, CaptureInterface.ambientTick,
      CaptureInterface.ambientFeature, CaptureInterface.initialBiometricData]
    norm_num
    rw [show (500 : ℝ) * Real.pi / 1000 = Real.pi / 2 by ring, Real.sin_pi_div_two]
    norm_num

/-- C4 amended: for every mode, `stopCapture` cancels the audio
animation-frame loop and the video analysis interval, and (by flipping
`isCapturing`) tears down the 800 ms sound-triggering loop, so audio and
video ticks after `stop()` are no-ops; but the ambient 150 ms generator is
left exactly as it was — it is cleared only by the 30-second timeout
scheduled at `start()` (deadline `t + 30000`), not by `stop()`. -/
theorem c4_amended (mode : CaptureMode) (t tStop : ℕ) (fstr : String)
    (s : CaptureInterface.State) :
    ((CaptureInterface.stopCapture tStop fstr
        (CaptureInterface.startCapture mode t s)).1).audioLoopActive = false
    ∧ ((CaptureInterface.stopCapture tStop fstr
        (CaptureInterface.startCapture mode t s)).1).videoIntervalActive = false
    ∧ ¬ CaptureInterface.soundLoopActive
        ((CaptureInterface.stopCapture tStop fstr
          (CaptureInterface.startCapture mode t s)).1)
    ∧ (∀ bins : List ℕ, CaptureInterface.audioTickEvent bins
        ((CaptureInterface.stopCapture tStop fstr
          (CaptureInterface.startCapture mode t s)).1)
        = (CaptureInterface.stopCapture tStop fstr
          (CaptureInterface.startCapture mode t s)).1)
    ∧ (∀ fr : FacialAnalyzer.Frame, CaptureInterface.videoTickEvent fr
        ((CaptureInterface.stopCapture tStop fstr
          (CaptureInterface.startCapture mode t s)).1)
        = (CaptureInterface.stopCapture tStop fstr
          (CaptureInterface.startCapture mode t s)).1)
    ∧ ((CaptureInterface.stopCapture tStop fstr
        (CaptureInterface.startCapture mode t s)).1).ambientIntervalActive
      = (CaptureInterface.startCapture mode t s).ambientIntervalActive
    ∧ (CaptureInterface.ambientTimeout
        ((CaptureInterface.stopCapture tStop fstr
          (CaptureInterface.startCapture mode t s)).1)).ambientIntervalActive = false
    ∧ (mode = .ambient →
        (CaptureInterface.startCapture mode t s).ambientCancelAt = some (t + 30000)) := by
  refine ⟨?_, ?_, ?_, ?_, ?_, ?_, ?_, ?_⟩ <;>
    cases mode <;>
      simp [CaptureInterface.stopCapture, CaptureInterface.startCapture,
        CaptureInterface.soundLoopActive, CaptureInterface.audioTickEvent,
        CaptureInterface.videoTickEvent, CaptureInterface.ambientTimeout]

/-- Witness for the amended C4, instantiated in ambient mode at start time 0. -/
theorem c4_witness :
    ((CaptureInterface.stopCapture 1 ""
        (CaptureInterface.startCapture .ambient 0 CaptureInterface.initState)).1).audioLoopActive
      = false
    ∧ (CaptureInterface.startCapture .ambient 0 CaptureInterface.initState).ambientCancelAt
      = some (0 + 30000) :=
  ⟨(c4_amended .ambient 0 1 "" CaptureInterface.initState).1,
   (c4_amended .ambient 0 1 "" CaptureInterface.initState).2.2.2.2.2.2.2 rfl⟩

/-- C9: `stop()` invoked right after a successful `start()` with zero elapsed
analysis ticks still returns a well-formed SoulPrint — id and timestamp from
the stop-time clock, the session's capture mode, the initial default
FeatureVector (intensity 0.3, harmonics [0.4, 0.6, 0.5, 0.8, 0.3], resonance
0.5), and visual/audio signatures derived from it (hue ⌊0.3·360⌋ = 108,
saturation 0.5, complexity 0.52, base frequency 286 Hz, harmonic series
[352, 528, 440, 704, 264], resonance depth 0.5). -/
theorem c9_soulprint_zero_ticks (mode : CaptureMode) (t tStop : ℕ) (fstr : String) :
    ((CaptureInterface.stopCapture tStop fstr
        (CaptureInterface.startCapture mode t CaptureInterface.initState)).2).biometricData
      = ⟨0.3, [0.4, 0.6, 0.5, 0.8, 0.3], 0.5⟩
    ∧ ((CaptureInterface.stopCapture tStop fstr
        (CaptureInterface.startCapture mode t CaptureInterface.initState)).2).captureMode = mode
    ∧ ((CaptureInterface.stopCapture tStop fstr
        (CaptureInterface.startCapture mode t CaptureInterface.initState)).2).id = tStop
    ∧ ((CaptureInterface.stopCapture tStop fstr
        (CaptureInterface.startCapture mode t CaptureInterface.initState)).2).timestamp = tStop
    ∧ ((CaptureInterface.stopCapture tStop fstr
        (CaptureInterface.startCapture mode t
          CaptureInterface.initState)).2).visualSignature.primaryHue = 108
    ∧ ((CaptureInterface.stopCapture tStop fstr
        (CaptureInterface.startCapture mode t
          CaptureInterface.initState)).2).visualSignature.saturation = 0.5
    ∧ ((CaptureInterface.stopCapture tStop fstr
        (CaptureInterface.startCapture mode t
          CaptureInterface.initState)).2).visualSignature.complexity = 0.52
    ∧ ((CaptureInterface.stopCapture tStop fstr
        (CaptureInterface.startCapture mode t
          CaptureInterface.initState)).2).visualSignature.patterns
      = [0.4, 0.6, 0.5, 0.8, 0.3]
    ∧ ((CaptureInterface.stopCapture tStop fstr
        (CaptureInterface.startCapture mode t
          CaptureInterface.initState)).2).audioSignature.baseFrequency = 286
    ∧ ((CaptureInterface.stopCapture tStop fstr
        (CaptureInterface.startCapture mode t
          CaptureInterface.initState)).2).audioSignature.harmonicSeries
      = [352, 528, 440, 704, 264]
    ∧ ((CaptureInterface.stopCapture tStop fstr
        (CaptureInterface.startCapture mode t
          CaptureInterface.initState)).2).audioSignature.resonanceDepth = 0.5 := by
  refine ⟨?_, ?_, ?_, ?_, ?_, ?_, ?_, ?_, ?_, ?_, ?_⟩ <;>
    cases mode <;>
      simp [CaptureInterface.stopCapture, CaptureInterface.startCapture,
        CaptureInterface.initState, CaptureInterface.initialBiometricData,
        CaptureInterface.generateVisualSignature, CaptureInterface.generateAudioSignature] <;>
      norm_num

namespace SoundSynthesizer

/-- One triggered tone: which synth voice fired, the frequency passed to
`triggerAttackRelease`, the decibel volume assigned to `synth.volume.value`,
and the `setTimeout` delay (`index * 50` ms). -/
structure ToneEvent (α : Type) where
  index : ℕ
  frequency : α
  volume : α
  delayMs : ℕ
deriving DecidableEq

/-- The `harmonics.forEach((harmonic, index) => …)` loop of
`playBiometricSounds`, with the running index explicit: voice `index` fires
only when `harmonic > 0.1 && index < synths.length`, at frequency
`baseFreq * (index + 1) * 0.5`, with volume
`Math.max(-40, harmonic * intensity - 60)`, after `index * 50` ms. -/
def playVoices {α : Type} [LinearOrderedField α] (baseFreq intensity : α)
    (synthCount : ℕ) : ℕ → List α → List (ToneEvent α)
  | _, [] => []
  | i, h :: rest =>
    (if h > 0.1 ∧ i < synthCount then
        [⟨i, baseFreq * ((i : α) + 1) * (1 / 2), max (-40) (h * intensity - 60), i * 50⟩]
      else [])
      ++ playVoices baseFreq intensity synthCount (i + 1) rest

/-- `SoundSynthesizer.playBiometricSounds`: a no-op unless initialized with a
nonempty synth pool (after `initialize()` there are 5 synths and a live
filter); otherwise it retunes the lowpass filter to
`400 + resonance * 1200` and runs the per-voice trigger loop with
`baseFreq = 220 + intensity * 220`. -/
def playBiometricSounds {α : Type} [LinearOrderedField α] (isInitialized : Bool)
    (synthCount : ℕ) (d : FeatureVector α) : Option α × List (ToneEvent α) :=
  if isInitialized = false ∨ synthCount = 0 then (none, [])
  else (some (400 + d.resonance * 1200),
    playVoices (220 + d.intensity * 220) d.intensity synthCount 0 d.harmonics)

/-- Anatomy of every triggered tone. -/
theorem playVoices_mem {α : Type} [LinearOrderedField α] (baseFreq intensity : α)
    (c : ℕ) :
    ∀ (k : ℕ) (l : List α) (e : ToneEvent α), e ∈ playVoices baseFreq intensity c k l →
      ∃ j, j < l.length ∧ e.index = k + j ∧ l.getD j 0 > 0.1 ∧ e.index < c ∧
        e.frequency = baseFreq * ((e.index : α) + 1) * (1 / 2) ∧
        e.volume = max (-40) (l.getD j 0 * intensity - 60) ∧ e.delayMs = e.index * 50 := by
  intro k l
  induction l generalizing k with
  | nil =>
    intro e he
    simp [playVoices] at he
  | cons h rest ih =>
    intro e he
    rw [playVoices] at he
    rcases List.mem_append.mp he with h1 | h2
    · split at h1
      · rename_i hc
        rw [List.mem_singleton] at h1
        subst h1
        exact ⟨0, by simp, by simp, by simpa using hc.1, by simpa using hc.2, rfl, by simp, rfl⟩
      · simp at h1
    · obtain ⟨j, hj, hidx, hgt, hic, hfreq, hvol, hdel⟩ := ih (k + 1) e h2
      refine ⟨j + 1, by simpa using hj, by omega, by simpa using hgt, hic, hfreq, ?_, hdel⟩
      rw [hvol, List.getD_cons_succ]

/-- No voice fires when every harmonic is at or below the 0.1 threshold. -/
theorem playVoices_silent {α : Type} [LinearOrderedField α] (baseFreq intensity : α)
    (c : ℕ) :
    ∀ (k : ℕ) (l : List α), (∀ h ∈ l, h ≤ 0.1) →
      playVoices baseFreq intensity c k l = [] := by
  intro k l
  induction l generalizing k with
  | nil => intro _; rfl
  | cons h rest ih =>
    intro hle
    rw [playVoices, if_neg (by
      intro hc
      exact absurd hc.1 (not_lt.mpr (hle h (List.mem_cons_self h rest)))), List.nil_append]
    exact ih (k + 1) fun x hx => hle x (List.mem_cons_of_mem h hx)

end SoundSynthesizer

/-- C10: the 800 ms sound loop is scheduled only while the current
FeatureVector's intensity exceeds 0.1 (so intensity ≤ 0.1 triggers no tone at
all); within one `playBiometricSounds` call, voice `i < 5` fires only when
`harmonics[i] > 0.1`, at frequency `(220 + intensity·220)·(i+1)·0.5` with
volume `max(−40, harmonics[i]·intensity − 60)` dB; and a FeatureVector all of
whose harmonics are ≤ 0.1 triggers no tone. -/
theorem c10_tone_gating :
    (∀ s : CaptureInterface.State, s.biometricData.intensity ≤ 0.1 →
        ¬ CaptureInterface.soundLoopActive s)
      ∧ (∀ s : CaptureInterface.State, CaptureInterface.soundLoopActive s →
        s.biometricData.intensity > 0.1)
      ∧ (∀ d : FeatureVector ℚ,
        ∀ e ∈ (SoundSynthesizer.playBiometricSounds true 5 d).2,
          d.harmonics.getD e.index 0 > 0.1 ∧ e.index < 5 ∧
          e.frequency = (220 + d.intensity * 220) * ((e.index : ℚ) + 1) * (1 / 2) ∧
          e.volume = max (-40) (d.harmonics.getD e.index 0 * d.intensity - 60) ∧
          e.delayMs = e.index * 50)
      ∧ (∀ d : FeatureVector ℚ, (∀ h ∈ d.harmonics, h ≤ 0.1) →
        (SoundSynthesizer.playBiometricSounds true 5 d).2 = []) := by
  refine ⟨?_, ?_, ?_, ?_⟩
  · intro s hle hact
    exact absurd hact.2 (not_lt.mpr hle)
  · intro s hact
    exact hact.2
  · intro d e he
    rw [SoundSynthesizer.playBiometricSounds, if_neg (by simp)] at he
    obtain ⟨j, hj, hidx, hgt, hic, hfreq, hvol, hdel⟩ :=
      SoundSynthesizer.playVoices_mem (220 + d.intensity * 220) d.intensity 5 0
        d.harmonics e he
    have hj0 : e.index = j := by omega
    subst hj0
    exact ⟨hgt, hic, hfreq, hvol, hdel⟩
  · intro d hle
    rw [SoundSynthesizer.playBiometricSounds, if_neg (by simp)]
    simp only
    rw [SoundSynthesizer.playVoices_silent _ _ _ _ _ hle]

/-- Witness for C10: a capturing state with intensity 0.05 schedules no sound
loop; on the FeatureVector ⟨0.5, [0.2, 0, 0, 0, 0], 0⟩ the (single) fired
voice 0 obeys the stated frequency/volume formulas; and a FeatureVector with
every harmonic ≤ 0.1 fires nothing. -/
theorem c10_witness :
    ¬ CaptureInterface.soundLoopActive
        ⟨true, .audio, ⟨0.05, [], 0⟩, true, false, false, none⟩
      ∧ ((⟨0.5, [0.2, 0, 0, 0, 0], 0⟩ : FeatureVector ℚ).harmonics.getD
            (⟨0, 165, -40, 0⟩ : SoundSynthesizer.ToneEvent ℚ).index 0 > 0.1
        ∧ (⟨0, 165, -40, 0⟩ : SoundSynthesizer.ToneEvent ℚ).index < 5
        ∧ (⟨0, 165, -40, 0⟩ : SoundSynthesizer.ToneEvent ℚ).frequency
            = (220 + (⟨0.5, [0.2, 0, 0, 0, 0], 0⟩ : FeatureVector ℚ).intensity * 220)
              * (((⟨0, 165, -40, 0⟩ : SoundSynthesizer.ToneEvent ℚ).index : ℚ) + 1) * (1 / 2)
        ∧ (⟨0, 165, -40, 0⟩ : SoundSynthesizer.ToneEvent ℚ).volume
            = max (-40)
              ((⟨0.5, [0.2, 0, 0, 0, 0], 0⟩ : FeatureVector ℚ).harmonics.getD
                  (⟨0, 165, -40, 0⟩ : SoundSynthesizer.ToneEvent ℚ).index 0
                * (⟨0.5, [0.2, 0, 0, 0, 0], 0⟩ : FeatureVector ℚ).intensity - 60)
        ∧ (⟨0, 165, -40, 0⟩ : SoundSynthesizer.ToneEvent ℚ).delayMs
            = (⟨0, 165, -40, 0⟩ : SoundSynthesizer.ToneEvent ℚ).index * 50)
      ∧ (SoundSynthesizer.playBiometricSounds true 5
          (⟨0.3, [0.05, 0.1, 0, 0.02, 0.1], 0.2⟩ : FeatureVector ℚ)).2 = [] := by
  refine ⟨c10_tone_gating.1 _ (by norm_num), c10_tone_gating.2.2.1 _ _ ?_,
    c10_tone_gating.2.2.2 _ ?_⟩
  · rw [SoundSynthesizer.playBiometricSounds, if_neg (by simp)]
    simp only
    rw [SoundSynthesizer.playVoices, if_pos (by norm_num), List.mem_append, List.mem_singleton]
    left
    rw [SoundSynthesizer.ToneEvent.mk.injEq]
    refine ⟨rfl, by norm_num, ?_, rfl⟩
    exact (max_eq_left (by norm_num)).symm
  · intro h hh
    simp only [List.mem_cons, List.not_mem_nil, or_false] at hh
    rcases hh with rfl | rfl | rfl | rfl | rfl <;> norm_num

/-- C8 counterexample: from the initialized-and-analyzing state (an animation
frame pending, microphone and context attached), the SECOND `cleanup()` call
still performs a `microphone.disconnect()` and an `audioContext.close()` —
`cleanup` never nulls those fields, so the second call is not free of
re-release actions as the claim states. -/
theorem c8_counterexample :
    (AudioAnalyzer.cleanup (AudioAnalyzer.cleanup ⟨some 7, true, true⟩).1).2
        = [AudioAnalyzer.CleanupAction.disconnectMic,
           AudioAnalyzer.CleanupAction.closeContext]
      ∧ (AudioAnalyzer.cleanup (AudioAnalyzer.cleanup ⟨some 7, true, true⟩).1).2 ≠ [] := by
  constructor
  · rfl
  · intro h
    simp [AudioAnalyzer.cleanup, AudioAnalyzer.stopAnalysis] at h

/-- C8 amended: in any state, a second `stopAnalysis()` in a row is a true
no-op (no action, no state change), and neither call can throw (both are
total transitions).  A second `cleanup()` leaves the state unchanged and
performs no second frame cancellation, but it DOES invoke
`microphone.disconnect()` and `audioContext.close()` again whenever those
fields are set, because `cleanup` never clears them — benign per Web Audio
semantics (a bare `disconnect()` is a no-op; `close()` on a closed context
reports failure through a rejected promise, not a synchronous throw). -/
theorem c8_amended (s : AudioAnalyzer.State) :
    (AudioAnalyzer.stopAnalysis (AudioAnalyzer.stopAnalysis s).1).2 = []
      ∧ (AudioAnalyzer.stopAnalysis (AudioAnalyzer.stopAnalysis s).1).1
          = (AudioAnalyzer.stopAnalysis s).1
      ∧ (AudioAnalyzer.cleanup s).1.animationId = none
      ∧ (AudioAnalyzer.cleanup (AudioAnalyzer.cleanup s).1).1 = (AudioAnalyzer.cleanup s).1
      ∧ (AudioAnalyzer.cleanup (AudioAnalyzer.cleanup s).1).2
          = (if s.microphone then [AudioAnalyzer.CleanupAction.disconnectMic] else [])
            ++ (if s.audioContext then [AudioAnalyzer.CleanupAction.closeContext] else []) := by
  obtain ⟨aid, mic, ctx⟩ := s
  cases aid <;> cases mic <;> cases ctx <;>
    simp [AudioAnalyzer.stopAnalysis, AudioAnalyzer.cleanup]
